import Mathlib

/-!
Verification of the darkwing container supervisor's core algorithms against
its natural-language specification.  The definitions below are shallow
embeddings of the Python source:

* `src/darkwing/runtimes/spec.py`   — OCI spec overlay (`update_spec_file`
  and its helpers `_update_capabilities`, `_update_environment`,
  `_mount_source_path`, `_mount_spec`, `_update_mounts`, `_update_id_maps`).
* `src/darkwing/runtimes/runc.py`   — `iopump` cleanup, `RuncExecutor`
  (`_check_container_lockfile`, `create_container`, `run_until_complete`,
  `_reap`).
* `src/darkwing/config/container.py` — `Container._wait`, `Container.close`.
* `src/darkwing/utils/process.py`   — `compute_returncode`.

Python dictionaries are modelled as association lists with unique keys,
where replacement keeps the original insertion position and fresh keys are
appended (the CPython `dict` contract).  File contents of `config.json` /
`config.orig.json` are modelled by their parsed JSON values: `json.loads`
and `json.dumps` are deterministic, so equality of parsed values is
equivalent to byte equality of the serialized files.
-/

set_option linter.unusedVariables false

deriving instance DecidableEq for Except

namespace Darkwing

/-! ## Python `dict` model (ordered association list, unique keys) -/

/-- Set a key in a Python-style dict: replace the binding in place if the
key is present, append a fresh binding otherwise. -/
def dictSet : List (String × String) → String → String → List (String × String)
  | [], k, v => [(k, v)]
  | p :: t, k, v => if p.1 = k then (k, v) :: t else p :: dictSet t k v

/-- Remove a key from a Python-style dict (`dict.pop(k, None)`). -/
def dictPop : List (String × String) → String → List (String × String)
  | [], _ => []
  | p :: t, k => if p.1 = k then dictPop t k else p :: dictPop t k

/-- Look a key up in a Python-style dict. -/
def dictFind : List (String × String) → String → Option String
  | [], _ => none
  | p :: t, k => if p.1 = k then some p.2 else dictFind t k

theorem dictFind_dictSet (d : List (String × String)) (k v k') :
    dictFind (dictSet d k v) k' = if k = k' then some v else dictFind d k' := by
  induction d with
  | nil => simp [dictSet, dictFind]
  | cons p t ih =>
    rcases p with ⟨a, b⟩
    simp only [dictSet]
    by_cases h : a = k
    · subst h
      simp only [if_pos rfl, dictFind]
      by_cases h' : a = k' <;> simp [h']
    · rw [if_neg h]
      simp only [dictFind, ih]
      by_cases h' : a = k'
      · have hk : ¬ k = k' := fun he => h (h'.trans he.symm)
        simp [h', hk]
      · simp [h']

theorem dictFind_dictPop (d : List (String × String)) (k k') :
    dictFind (dictPop d k) k' = if k = k' then none else dictFind d k' := by
  induction d with
  | nil => simp [dictPop, dictFind]
  | cons p t ih =>
    rcases p with ⟨a, b⟩
    simp only [dictPop]
    by_cases h : a = k
    · subst h
      rw [if_pos rfl, ih]
      simp only [dictFind]
      by_cases h' : a = k' <;> simp [h']
    · rw [if_neg h]
      simp only [dictFind, ih]
      by_cases h' : a = k'
      · have hk : ¬ k = k' := fun he => h (h'.trans he.symm)
        simp [h', hk]
      · simp [h']

/-! ## `str.partition('=')` — split an environment entry at the first `=`.

`partChars cs` returns the part before the first `=`, whether an `=` was
found, and the part after it (mirroring Python's `name, sep, value =
var.partition('=')`, with the separator reported as a Bool). -/

def partChars : List Char → List Char × Bool × List Char
  | [] => ([], false, [])
  | c :: cs =>
    if c = '=' then ([], true, cs)
    else
      let r := partChars cs
      (c :: r.1, r.2)

/-- Partition a string at its first `=` (Python `var.partition('=')`). -/
def partEq (s : String) : String × Bool × String :=
  let r := partChars s.data
  (String.mk r.1, r.2.1, String.mk r.2.2)

/-! ## Capabilities (`_update_capabilities`, spec.py lines 15-24) -/

/-- Configuration record `config.data['caps']`. -/
structure CapsConfig where
  add : List String
  drop : List String
  deriving DecidableEq

/-- Per-kind capability list update, the loop body of `_update_capabilities`:
drop everything in `drop`, then append every member of `add` not already in
the filtered list (the membership test uses the frozen set of the filtered
originals, as in the source). -/
def updateCapList (capList : List String) (capsConfig : CapsConfig) : List String :=
  let newList := capList.filter (fun c => !capsConfig.drop.contains c)
  newList ++ capsConfig.add.filter (fun c => !newList.contains c)

/-- `_update_capabilities`: apply `updateCapList` to every capability kind
present in the spec's capabilities object. -/
def updateCapabilities (caps : List (String × List String)) (capsConfig : CapsConfig) :
    List (String × List String) :=
  caps.map (fun kl => (kl.1, updateCapList kl.2 capsConfig))

/-! ## Environment (`_update_environment`, spec.py lines 26-56) -/

/-- Configuration record `config.data['env']`. -/
structure EnvConfig where
  vars : List String
  host : List String
  deriving DecidableEq

/-- First loop of `_update_environment`: expand the spec's `KEY=VAL` list
into a dict (later occurrences overwrite earlier ones). -/
def applyOrigEntry (d : List (String × String)) (var : String) : List (String × String) :=
  let t := partEq var
  dictSet d t.1 t.2.2

/-- Second loop of `_update_environment`: `KEY=VAL` sets, bare `KEY` unsets. -/
def applyVarsEntry (d : List (String × String)) (var : String) : List (String × String) :=
  let t := partEq var
  if t.2.1 then dictSet d t.1 t.2.2 else dictPop d t.1

/-- Third loop of `_update_environment`: if the host environment has the
key, set it to the host value; else `KEY=DEFAULT` sets the default; else a
bare `KEY` unsets. -/
def applyHostEntry (hostEnv : String → Option String)
    (d : List (String × String)) (var : String) : List (String × String) :=
  let t := partEq var
  match hostEnv t.1 with
  | some hv => dictSet d t.1 hv
  | none => if t.2.1 then dictSet d t.1 t.2.2 else dictPop d t.1

/-- The dict produced by `_update_environment` just before emission. -/
def updateEnvironmentDict (env : List String) (envConfig : EnvConfig)
    (hostEnv : String → Option String) : List (String × String) :=
  let d0 := env.foldl applyOrigEntry []
  let d1 := envConfig.vars.foldl applyVarsEntry d0
  envConfig.host.foldl (applyHostEntry hostEnv) d1

/-- `_update_environment`: emit the dict as `KEY=VAL` strings in insertion
order. -/
def updateEnvironment (env : List String) (envConfig : EnvConfig)
    (hostEnv : String → Option String) : List String :=
  (updateEnvironmentDict env envConfig hostEnv).map (fun p => p.1 ++ "=" ++ p.2)

/-! ### Last-occurrence characterization of the environment folds -/

/-- The last entry of `l` whose partitioned name is `k`. -/
def lastWith (l : List String) (k : String) : Option String :=
  l.foldl (fun acc var => if (partEq var).1 = k then some var else acc) none

/-- Generic per-entry dict effect: an entry either (re)binds its own name or
removes it, as decided by `eff`. -/
def applyEff (eff : String → Option String)
    (d : List (String × String)) (var : String) : List (String × String) :=
  match eff var with
  | some v => dictSet d (partEq var).1 v
  | none => dictPop d (partEq var).1

theorem lastWith_acc (k : String) (l : List String) (acc : Option String) :
    l.foldl (fun acc var => if (partEq var).1 = k then some var else acc) acc
      = (lastWith l k).elim acc some := by
  induction l generalizing acc with
  | nil => simp [lastWith]
  | cons x xs ih =>
    simp only [List.foldl_cons, lastWith] at *
    rw [ih, ih (if (partEq x).1 = k then some x else none)]
    cases h : xs.foldl (fun acc var => if (partEq var).1 = k then some var else acc)
        (none : Option String) with
    | none => by_cases hx : (partEq x).1 = k <;> simp [hx]
    | some v => simp

theorem dictFind_foldl_applyEff (eff : String → Option String) (k : String)
    (l : List String) (d : List (String × String)) :
    dictFind (l.foldl (applyEff eff) d) k
      = (lastWith l k).elim (dictFind d k) eff := by
  induction l generalizing d with
  | nil => simp [lastWith]
  | cons x xs ih =>
    simp only [List.foldl_cons]
    rw [ih]
    have hl : lastWith (x :: xs) k
        = (lastWith xs k).elim (if (partEq x).1 = k then some x else none) some := by
      simp only [lastWith, List.foldl_cons]
      exact lastWith_acc k xs _
    rw [hl]
    cases h : lastWith xs k with
    | some v => simp
    | none =>
      simp only [Option.elim]
      by_cases hx : (partEq x).1 = k
      · cases he : eff x with
        | some v => simp [applyEff, he, dictFind_dictSet, hx]
        | none => simp [applyEff, he, dictFind_dictPop, hx]
      · cases he : eff x with
        | some v => simp [applyEff, he, dictFind_dictSet, hx]
        | none => simp [applyEff, he, dictFind_dictPop, hx]

theorem applyOrigEntry_eq_applyEff :
    applyOrigEntry = applyEff (fun var => some (partEq var).2.2) := by
  funext d var
  simp [applyOrigEntry, applyEff]

theorem applyVarsEntry_eq_applyEff :
    applyVarsEntry
      = applyEff (fun var =>
          if (partEq var).2.1 then some (partEq var).2.2 else none) := by
  funext d var
  by_cases h : (partEq var).2.1 <;> simp [applyVarsEntry, applyEff, h]

theorem applyHostEntry_eq_applyEff (hostEnv : String → Option String) :
    applyHostEntry hostEnv
      = applyEff (fun var =>
          match hostEnv (partEq var).1 with
          | some hv => some hv
          | none => if (partEq var).2.1 then some (partEq var).2.2 else none) := by
  funext d var
  cases h : hostEnv (partEq var).1 with
  | some hv => simp [applyHostEntry, applyEff, h]
  | none => by_cases hs : (partEq var).2.1 <;> simp [applyHostEntry, applyEff, h, hs]

theorem lastWith_eq_some_name (l : List String) (k var : String)
    (h : lastWith l k = some var) : (partEq var).1 = k := by
  induction l with
  | nil => simp [lastWith] at h
  | cons x xs ih =>
    have hx : lastWith (x :: xs) k
        = (lastWith xs k).elim (if (partEq x).1 = k then some x else none) some := by
      simp only [lastWith, List.foldl_cons]
      exact lastWith_acc k xs _
    rw [hx] at h
    cases hxs : lastWith xs k with
    | some v =>
      rw [hxs] at h
      simp only [Option.elim] at h
      exact ih (hxs.trans (congrArg some (Option.some.inj h)))
    | none =>
      rw [hxs] at h
      simp only [Option.elim] at h
      by_cases hn : (partEq x).1 = k
      · rw [if_pos hn] at h
        exact (Option.some.inj h) ▸ hn
      · rw [if_neg hn] at h
        exact absurd h (by simp)

/-- C3: after the environment overlay, the final binding of every key `k`
is: the host environment's value if `k` occurs in `env.host` and the host
environment sets it; else the explicit default if the (last) occurrence of
`k` in `env.host` is `KEY=DEFAULT`; else the value of the (last) occurrence
of `k` in `env.vars` when that occurrence is `KEY=VAL`; else the value of
the last occurrence of `k` in the original spec env list.  A bare `KEY` in
`env.vars`, or in `env.host` with the host variable unset, removes the key.
The emitted list is the dict rendered as `KEY=VAL` strings. -/
theorem C3_environment_overlay (env : List String) (envConfig : EnvConfig)
    (hostEnv : String → Option String) (k : String) :
    updateEnvironment env envConfig hostEnv
        = (updateEnvironmentDict env envConfig hostEnv).map (fun p => p.1 ++ "=" ++ p.2)
    ∧ dictFind (updateEnvironmentDict env envConfig hostEnv) k
        = match lastWith envConfig.host k with
          | some var =>
            (match hostEnv k with
             | some hv => some hv
             | none => if (partEq var).2.1 then some (partEq var).2.2 else none)
          | none =>
            match lastWith envConfig.vars k with
            | some var => if (partEq var).2.1 then some (partEq var).2.2 else none
            | none => (lastWith env k).map (fun var => (partEq var).2.2) := by
  refine ⟨rfl, ?_⟩
  show dictFind (envConfig.host.foldl (applyHostEntry hostEnv)
      (envConfig.vars.foldl applyVarsEntry (env.foldl applyOrigEntry []))) k = _
  rw [applyHostEntry_eq_applyEff, dictFind_foldl_applyEff]
  cases hh : lastWith envConfig.host k with
  | some var =>
    simp only [Option.elim, lastWith_eq_some_name _ _ _ hh]
  | none =>
    simp only [Option.elim]
    rw [applyVarsEntry_eq_applyEff, dictFind_foldl_applyEff]
    cases hv : lastWith envConfig.vars k with
    | some var => simp only [Option.elim]
    | none =>
      simp only [Option.elim]
      rw [applyOrigEntry_eq_applyEff, dictFind_foldl_applyEff]
      cases ho : lastWith env k with
      | some var => simp
      | none => simp [dictFind]

/-! ## C2: capability update laws -/

theorem updateCapList_eq (orig : List String) (cfg : CapsConfig) :
    updateCapList orig cfg
      = orig.filter (fun c => !cfg.drop.contains c)
        ++ cfg.add.filter
            (fun c => !(orig.filter (fun c => !cfg.drop.contains c)).contains c) := rfl

theorem mem_filter_not_contains (l₁ l₂ : List String) (c : String) :
    c ∈ l₁.filter (fun c => !l₂.contains c) ↔ c ∈ l₁ ∧ c ∉ l₂ := by
  simp [List.mem_filter]

theorem mem_updateCapList (orig : List String) (cfg : CapsConfig) (c : String) :
    c ∈ updateCapList orig cfg ↔ (c ∈ orig ∧ c ∉ cfg.drop) ∨ c ∈ cfg.add := by
  rw [updateCapList_eq]
  simp only [List.mem_append, mem_filter_not_contains]
  constructor
  · rintro (⟨hm, hd⟩ | ⟨ha, _⟩)
    · exact Or.inl ⟨hm, hd⟩
    · exact Or.inr ha
  · rintro (⟨hm, hd⟩ | ha)
    · exact Or.inl ⟨hm, hd⟩
    · by_cases hn : c ∈ orig.filter (fun c => !cfg.drop.contains c)
      · exact Or.inl ((mem_filter_not_contains _ _ c).mp hn)
      · exact Or.inr ⟨ha, fun hm => hn ((mem_filter_not_contains _ _ c).mpr hm)⟩

theorem updateCapList_nodup (orig : List String) (cfg : CapsConfig)
    (ho : orig.Nodup) (ha : cfg.add.Nodup) : (updateCapList orig cfg).Nodup := by
  rw [updateCapList_eq]
  refine List.Nodup.append (ho.filter _) (ha.filter _) ?_
  intro c hc hc'
  exact ((mem_filter_not_contains _ _ c).mp hc').2 hc

/-- C2 (amended): when `add` or `drop` is non-empty, each capability kind's
list is transformed by `updateCapList`: the result is exactly the originals
with the `drop` members removed, followed by the `add` members not already
in the filtered originals; as a set it is `(orig \ drop) ∪ add`; retained
items keep their original relative order and appended adds appear in input
order; and the result is duplicate-free whenever the original list and
`add` are themselves duplicate-free. -/
theorem C2_capability_update (cfg : CapsConfig)
    (hne : cfg.add ≠ [] ∨ cfg.drop ≠ []) (caps : List (String × List String)) :
    updateCapabilities caps cfg = caps.map (fun kl => (kl.1, updateCapList kl.2 cfg))
    ∧ ∀ orig : List String,
        updateCapList orig cfg
          = orig.filter (fun c => !cfg.drop.contains c)
            ++ cfg.add.filter
                (fun c => !(orig.filter (fun c => !cfg.drop.contains c)).contains c)
        ∧ (∀ c, c ∈ updateCapList orig cfg ↔ (c ∈ orig ∧ c ∉ cfg.drop) ∨ c ∈ cfg.add)
        ∧ (orig.filter (fun c => !cfg.drop.contains c)).Sublist orig
        ∧ (cfg.add.filter
            (fun c => !(orig.filter (fun c => !cfg.drop.contains c)).contains c)).Sublist
            cfg.add
        ∧ (orig.Nodup → cfg.add.Nodup → (updateCapList orig cfg).Nodup) := by
  refine ⟨rfl, fun orig => ⟨rfl, mem_updateCapList orig cfg,
    List.filter_sublist _, List.filter_sublist _, updateCapList_nodup orig cfg⟩⟩

/-- C2 witness: the amended claim applied at a concrete capability
configuration. -/
theorem C2_capability_update_witness :
    updateCapabilities [("bounding", ["CAP_CHOWN", "CAP_KILL"])]
        ⟨["CAP_NET_ADMIN"], ["CAP_KILL"]⟩
      = [("bounding", ["CAP_CHOWN", "CAP_NET_ADMIN"])] := by
  have h := C2_capability_update ⟨["CAP_NET_ADMIN"], ["CAP_KILL"]⟩
    (Or.inl (by decide)) [("bounding", ["CAP_CHOWN", "CAP_KILL"])]
  rw [h.1]
  decide

/-- C2 counterexample: the claim asserts the updated list never contains
duplicates, but a duplicated entry in `add` (absent from the originals) is
appended twice, because the membership test uses the frozen set of the
filtered originals. -/
theorem C2_capability_update_counterexample :
    (["CAP_NET_ADMIN", "CAP_NET_ADMIN"] ≠ ([] : List String)
      ∨ ["CAP_KILL"] ≠ ([] : List String))
    ∧ updateCapabilities [("bounding", [])]
        ⟨["CAP_NET_ADMIN", "CAP_NET_ADMIN"], ["CAP_KILL"]⟩
      = [("bounding", ["CAP_NET_ADMIN", "CAP_NET_ADMIN"])]
    ∧ ¬ (updateCapList [] ⟨["CAP_NET_ADMIN", "CAP_NET_ADMIN"], ["CAP_KILL"]⟩).Nodup := by
  refine ⟨Or.inl (by decide), by decide, by decide⟩

/-! ## Mounts (`_mount_source_path`, `_mount_spec`, `_update_mounts`,
spec.py lines 58-119).

Exceptions propagate through `Except String`; the Python `mount_map` dict
keyed by destination is modelled by `mdictSet`/`destFind` with the CPython
replace-in-place semantics. -/

/-- A mount record from `volumes.mounts` / `rundir.mounts`.  The source
field named `type` is rendered `type'` (`type` is reserved in Lean). -/
structure CfgMount where
  source : String
  target : String
  type' : String
  recursive : Bool
  readonly : Bool
  deriving DecidableEq

/-- Configuration record `config.data['volumes']` (field `private` rendered
`private'`). -/
structure Volumes where
  shared : String
  private' : String
  mounts : List CfgMount
  deriving DecidableEq

/-- The parts of `rundir.data` consumed by the spec overlay. -/
structure RundirData where
  volumes : String
  mounts : List CfgMount
  deriving DecidableEq

/-- An entry of the OCI spec's `mounts` list. -/
structure OCIMountEntry where
  destination : String
  type' : String
  source : String
  options : List String
  deriving DecidableEq

/-- Python `s.lstrip('/')`. -/
def lstripSlash (s : String) : String :=
  String.mk (s.data.dropWhile (fun c => c = '/'))

/-- `PurePosixPath.is_absolute()`: the path begins with `/`. -/
def isAbsolute (s : String) : Bool :=
  match s.data with
  | [] => false
  | c :: _ => c = '/'

/-- `Path(base) / sub` for an already-normalized base path. -/
def pathJoin (base sub : String) : String :=
  base ++ "/" ++ sub

/-- `_mount_source_path`: resolve a mount's source path according to its
type; `bind` requires an absolute path, `runtime` requires a runtime dir. -/
def mountSourcePath (type' source : String) (volumes : Volumes)
    (rundir : Option RundirData) : Except String String :=
  if type' = "bind" then
    if isAbsolute source then .ok source
    else .error ("Bind mount " ++ source ++ " must be absolute")
  else if type' = "shared" then .ok (pathJoin volumes.shared (lstripSlash source))
  else if type' = "private" then .ok (pathJoin volumes.private' (lstripSlash source))
  else if type' = "runtime" then
    match rundir with
    | some rd => .ok (pathJoin rd.volumes (lstripSlash source))
    | none => .error ("Runtime volume mount requested for " ++ source
        ++ ", but no runtime directory given")
  else .error ("Unknown mount type: " ++ type')

/-- `_mount_spec`: base options `nodev, nosuid`, then `rbind` for recursive
mounts or `bind` otherwise, then `ro` for readonly mounts. -/
def mountSpec (m : CfgMount) (volumes : Volumes) (rundir : Option RundirData) :
    Except String OCIMountEntry :=
  match mountSourcePath m.type' m.source volumes rundir with
  | .error e => .error e
  | .ok p =>
    .ok { destination := m.target
          type' := "bind"
          source := p
          options := ["nodev", "nosuid", if m.recursive then "rbind" else "bind"]
            ++ if m.readonly then ["ro"] else [] }

/-- Set an entry in the destination-keyed mount dict (replace in place or
append, the CPython `dict` contract). -/
def mdictSet : List OCIMountEntry → OCIMountEntry → List OCIMountEntry
  | [], m => [m]
  | e :: t, m => if e.destination = m.destination then m :: t else e :: mdictSet t m

/-- Look a destination up in the mount dict. -/
def destFind : List OCIMountEntry → String → Option OCIMountEntry
  | [], _ => none
  | e :: t, dest => if e.destination = dest then some e else destFind t dest

/-- One `for mount in ...` loop of `_update_mounts`: compute each spec and
store it under its destination, propagating errors. -/
def applyMounts (volumes : Volumes) (rundir : Option RundirData) :
    List CfgMount → List OCIMountEntry → Except String (List OCIMountEntry)
  | [], d => .ok d
  | m :: t, d =>
    match mountSpec m volumes rundir with
    | .error e => .error e
    | .ok s => applyMounts volumes rundir t (mdictSet d s)

/-- `_update_mounts`: seed the dict with the original spec mounts, then
overlay `volumes.mounts`, then (when a runtime dir is given)
`rundir.mounts`; emit the dict values in insertion order. -/
def updateMounts (mounts : List OCIMountEntry) (volumes : Volumes)
    (rundir : Option RundirData) : Except String (List OCIMountEntry) :=
  match applyMounts volumes rundir volumes.mounts (mounts.foldl mdictSet []) with
  | .error e => .error e
  | .ok map1 =>
    match rundir with
    | some rd => applyMounts volumes rundir rd.mounts map1
    | none => .ok map1

/-- The specs produced for a list of configured mounts, in processing
order. -/
def specsFor (volumes : Volumes) (rundir : Option RundirData) :
    List CfgMount → Except String (List OCIMountEntry)
  | [] => .ok []
  | m :: t =>
    match mountSpec m volumes rundir with
    | .error e => .error e
    | .ok s =>
      match specsFor volumes rundir t with
      | .error e => .error e
      | .ok rest => .ok (s :: rest)

/-- The configured mounts processed by `_update_mounts`, in order. -/
def rdMounts : Option RundirData → List CfgMount
  | some rd => rd.mounts
  | none => []

/-- The last entry of `l` whose destination is `dest`. -/
def lastDest (l : List OCIMountEntry) (dest : String) : Option OCIMountEntry :=
  l.foldl (fun acc e => if e.destination = dest then some e else acc) none

theorem destFind_mdictSet (d : List OCIMountEntry) (m : OCIMountEntry) (dest : String) :
    destFind (mdictSet d m) dest
      = if m.destination = dest then some m else destFind d dest := by
  induction d with
  | nil => simp [mdictSet, destFind]
  | cons e t ih =>
    simp only [mdictSet]
    by_cases h : e.destination = m.destination
    · rw [if_pos h]
      simp only [destFind]
      by_cases h' : m.destination = dest
      · simp [h', h.trans h']
      · have he : ¬ e.destination = dest := fun hx => h' (h.symm.trans hx)
        simp [h', he]
    · rw [if_neg h]
      simp only [destFind, ih]
      by_cases h' : e.destination = dest
      · have hk : ¬ m.destination = dest := fun he => h (h'.trans he.symm)
        simp [h', hk]
      · simp [h']

theorem lastDest_acc (dest : String) (l : List OCIMountEntry) (acc : Option OCIMountEntry) :
    l.foldl (fun acc e => if e.destination = dest then some e else acc) acc
      = (lastDest l dest).elim acc some := by
  induction l generalizing acc with
  | nil => simp [lastDest]
  | cons x xs ih =>
    simp only [List.foldl_cons, lastDest] at *
    rw [ih, ih (if x.destination = dest then some x else none)]
    cases h : xs.foldl (fun acc e => if e.destination = dest then some e else acc)
        (none : Option OCIMountEntry) with
    | none => by_cases hx : x.destination = dest <;> simp [hx]
    | some v => simp

theorem destFind_foldl_mdictSet (specs : List OCIMountEntry)
    (d : List OCIMountEntry) (dest : String) :
    destFind (specs.foldl mdictSet d) dest
      = (lastDest specs dest).elim (destFind d dest) some := by
  induction specs generalizing d with
  | nil => simp [lastDest]
  | cons s t ih =>
    simp only [List.foldl_cons]
    rw [ih]
    have hl : lastDest (s :: t) dest
        = (lastDest t dest).elim (if s.destination = dest then some s else none) some := by
      simp only [lastDest, List.foldl_cons]
      exact lastDest_acc dest t _
    rw [hl]
    cases h : lastDest t dest with
    | some v => simp
    | none =>
      simp only [Option.elim]
      rw [destFind_mdictSet]
      by_cases hx : s.destination = dest <;> simp [hx]

theorem applyMounts_eq (volumes : Volumes) (rundir : Option RundirData)
    (l : List CfgMount) (d : List OCIMountEntry) :
    applyMounts volumes rundir l d
      = match specsFor volumes rundir l with
        | .error e => .error e
        | .ok specs => .ok (specs.foldl mdictSet d) := by
  induction l generalizing d with
  | nil => simp [applyMounts, specsFor]
  | cons m t ih =>
    simp only [applyMounts, specsFor]
    cases h : mountSpec m volumes rundir with
    | error e => simp
    | ok s =>
      simp only []
      rw [ih]
      cases ht : specsFor volumes rundir t with
      | error e => simp
      | ok rest => simp

theorem specsFor_append (volumes : Volumes) (rundir : Option RundirData)
    (l₁ l₂ : List CfgMount) :
    specsFor volumes rundir (l₁ ++ l₂)
      = match specsFor volumes rundir l₁ with
        | .error e => .error e
        | .ok s₁ =>
          match specsFor volumes rundir l₂ with
          | .error e => .error e
          | .ok s₂ => .ok (s₁ ++ s₂) := by
  induction l₁ with
  | nil =>
    simp only [List.nil_append, specsFor]
    cases specsFor volumes rundir l₂ <;> simp
  | cons m t ih =>
    simp only [List.cons_append, specsFor]
    cases h : mountSpec m volumes rundir with
    | error e => simp
    | ok s =>
      simp only [List.append_eq]
      rw [ih]
      cases specsFor volumes rundir t with
      | error e => simp
      | ok rest =>
        simp only []
        cases specsFor volumes rundir l₂ <;> simp

theorem updateMounts_eq (mounts : List OCIMountEntry) (volumes : Volumes)
    (rundir : Option RundirData) :
    updateMounts mounts volumes rundir
      = match specsFor volumes rundir (volumes.mounts ++ rdMounts rundir) with
        | .error e => .error e
        | .ok specs => .ok (specs.foldl mdictSet (mounts.foldl mdictSet [])) := by
  cases rundir with
  | none =>
    rw [updateMounts.eq_def, applyMounts_eq]
    simp only [rdMounts, List.append_nil]
    cases h1 : specsFor volumes none volumes.mounts <;> simp
  | some rd =>
    rw [updateMounts.eq_def, specsFor_append, applyMounts_eq]
    simp only [rdMounts]
    cases h1 : specsFor volumes (some rd) volumes.mounts with
    | error e => simp
    | ok s₁ =>
      simp only []
      rw [applyMounts_eq]
      cases h2 : specsFor volumes (some rd) rd.mounts with
      | error e => simp
      | ok s₂ => simp [List.foldl_append]

/-- C7 counterexample: for a plain non-recursive, non-readonly bind mount
the emitted options list is `["nodev", "nosuid", "bind"]` — the base
options come first and the bind flavour is appended after them — not
`["bind", "nodev", "nosuid"]` as the claim orders them. -/
theorem C7_mount_spec_counterexample :
    mountSpec ⟨"/hostdir", "/ctrdir", "bind", false, false⟩ ⟨"/vs", "/vp", []⟩ none
      = .ok ⟨"/ctrdir", "bind", "/hostdir", ["nodev", "nosuid", "bind"]⟩
    ∧ (["nodev", "nosuid", "bind"] : List String) ≠ ["bind", "nodev", "nosuid"] := by
  exact ⟨by decide, by decide⟩

/-- C7 (amended): every configured mount maps to an entry
`{destination := target, type := "bind", source := resolved path}` whose
options are `["nodev", "nosuid"]`, then `"rbind"` when recursive else
`"bind"`, then `"ro"` exactly when readonly, in that order; and in the
final mounts list the entry stored under each destination is the last
processed spec with that destination (rundir mounts after volume mounts),
falling back to the last original spec entry with that destination. -/
theorem C7_mount_entries (volumes : Volumes) (rundir : Option RundirData) :
    (∀ m e, mountSpec m volumes rundir = .ok e →
      e.destination = m.target
      ∧ e.type' = "bind"
      ∧ mountSourcePath m.type' m.source volumes rundir = .ok e.source
      ∧ e.options = ["nodev", "nosuid", if m.recursive then "rbind" else "bind"]
          ++ (if m.readonly then ["ro"] else []))
    ∧ (∀ mounts specs res dest,
        specsFor volumes rundir (volumes.mounts ++ rdMounts rundir) = .ok specs →
        updateMounts mounts volumes rundir = .ok res →
        destFind res dest
          = (lastDest specs dest).elim
              ((lastDest mounts dest).elim none some) some) := by
  constructor
  · intro m e he
    rw [mountSpec.eq_def] at he
    cases hs : mountSourcePath m.type' m.source volumes rundir with
    | error er => rw [hs] at he; exact absurd he (by simp)
    | ok p =>
      rw [hs] at he
      simp only [Except.ok.injEq] at he
      subst he
      exact ⟨rfl, rfl, rfl, rfl⟩
  · intro mounts specs res dest hspecs hres
    rw [updateMounts_eq, hspecs] at hres
    simp only [Except.ok.injEq] at hres
    subst hres
    rw [destFind_foldl_mdictSet, destFind_foldl_mdictSet]
    simp [destFind]

/-- C7 witness: the amended claim applied to one shared volume mount that
overrides an original spec entry at destination `/data`. -/
theorem C7_mount_entries_witness :
    (⟨"/data", "bind", "/vs/data", ["nodev", "nosuid", "bind", "ro"]⟩ :
        OCIMountEntry).options
      = ["nodev", "nosuid", if false then "rbind" else "bind"]
          ++ (if true then ["ro"] else [])
    ∧ destFind [⟨"/data", "bind", "/vs/data", ["nodev", "nosuid", "bind", "ro"]⟩] "/data"
      = some ⟨"/data", "bind", "/vs/data", ["nodev", "nosuid", "bind", "ro"]⟩ := by
  have hall := C7_mount_entries ⟨"/vs", "/vp", [⟨"data", "/data", "shared", false, true⟩]⟩ none
  refine ⟨(hall.1 ⟨"data", "/data", "shared", false, true⟩
      ⟨"/data", "bind", "/vs/data", ["nodev", "nosuid", "bind", "ro"]⟩ rfl).2.2.2, ?_⟩
  have h2 := hall.2 [⟨"/data", "bind", "/old", ["nodev", "nosuid", "bind"]⟩]
    [⟨"/data", "bind", "/vs/data", ["nodev", "nosuid", "bind", "ro"]⟩]
    [⟨"/data", "bind", "/vs/data", ["nodev", "nosuid", "bind", "ro"]⟩] "/data" rfl rfl
  simpa [lastDest] using h2

/-! ## The OCI spec document and container config (`update_spec_file`,
spec.py lines 121-240).

`config.json` / `config.orig.json` contents are modelled by their parsed
values (`OCISpec`); `json.loads` / `json.dumps` are deterministic, so two
writes of equal parsed values are byte-identical. -/

structure OCIUser where
  uid : Int
  gid : Int
  deriving DecidableEq

structure OCIProcess where
  user : OCIUser
  terminal : Bool
  cwd : String
  args : List String
  capabilities : List (String × List String)
  env : List String
  deriving DecidableEq

structure IdMap where
  containerID : Int
  hostID : Int
  size : Int
  deriving DecidableEq

structure LinuxConfig where
  uidMappings : List IdMap
  gidMappings : List IdMap
  deriving DecidableEq

structure OCISpec where
  hostname : String
  process : OCIProcess
  mounts : List OCIMountEntry
  linux : LinuxConfig
  deriving DecidableEq

structure UserConfig where
  uid : Int
  gid : Int
  deriving DecidableEq

/-- `config.data['exec']`.  `args` is modelled in its already-list form;
`_split_args` also accepts a raw string and shell-splits it, which is a
deterministic function and out of scope for the claims below. -/
structure ExecConfig where
  dir : String
  cmd : String
  args : List String
  terminal : Bool
  deriving DecidableEq

structure DnsConfig where
  hostname : String
  deriving DecidableEq

/-- The parts of `config.data` consumed by `update_spec_file`. -/
structure ConfigData where
  dns : DnsConfig
  user : UserConfig
  exec : ExecConfig
  caps : CapsConfig
  env : EnvConfig
  volumes : Volumes
  deriving DecidableEq

/-- `_split_args` restricted to list-typed args (`if not args: []`,
otherwise the list itself). -/
def splitArgs (args : List String) : List String :=
  if args.isEmpty then [] else args

/-- `_update_id_maps`: rewrite `hostID` of every entry whose `containerID`
matches; other entries pass through. -/
def updateIdMaps (idMaps : List IdMap) (containerID hostID : Int) : List IdMap :=
  idMaps.map (fun m =>
    if m.containerID = containerID then { m with hostID := hostID } else m)

/-- `_ensure_mounts`, reduced to its observable checks: resolve each source
path (can fail for unknown types or relative binds), require bind sources
to exist on the host (`pathExists` oracle); volume directories are created
by `ensure_dirs`, a side effect that cannot change the spec files. -/
def ensureMountsCheck (volumes : Volumes) (rundir : Option RundirData)
    (pathExists : String → Bool) : List CfgMount → Except String Unit
  | [] => .ok ()
  | m :: t =>
    match mountSourcePath m.type' m.source volumes rundir with
    | .error e => .error e
    | .ok p =>
      if m.type' = "bind" then
        if pathExists p then ensureMountsCheck volumes rundir pathExists t
        else .error ("Bind mount " ++ p ++ " must exist")
      else ensureMountsCheck volumes rundir pathExists t

/-- The pure overlay applied by `update_spec_file` to the pristine spec:
hostname, process user ids, terminal policy, command/args, capabilities,
environment, mounts and rootless id maps. -/
def overlaySpec (cfg : ConfigData) (rundir : Option RundirData)
    (ouid ogid : Option Int) (allowTty forceTty : Option Bool)
    (hostEnv : String → Option String) (spec : OCISpec) : Except String OCISpec :=
  match updateMounts spec.mounts cfg.volumes rundir with
  | .error e => .error e
  | .ok mounts =>
    .ok { hostname := cfg.dns.hostname
          process :=
            { user := ⟨cfg.user.uid, cfg.user.gid⟩
              terminal :=
                match forceTty with
                | some b => b
                | none =>
                  match allowTty with
                  | some a => a && cfg.exec.terminal
                  | none => cfg.exec.terminal
              cwd := if cfg.exec.dir ≠ "" then cfg.exec.dir else spec.process.cwd
              args :=
                if cfg.exec.cmd ≠ "" then cfg.exec.cmd :: splitArgs cfg.exec.args
                else if cfg.exec.args ≠ [] then
                  spec.process.args.take 1 ++ splitArgs cfg.exec.args
                else spec.process.args
              capabilities :=
                if cfg.caps.add ≠ [] ∨ cfg.caps.drop ≠ [] then
                  updateCapabilities spec.process.capabilities cfg.caps
                else spec.process.capabilities
              env := updateEnvironment spec.process.env cfg.env hostEnv }
          mounts := mounts
          linux :=
            { uidMappings :=
                match ouid with
                | some u => updateIdMaps spec.linux.uidMappings cfg.user.uid u
                | none => spec.linux.uidMappings
              gidMappings :=
                match ogid with
                | some g => updateIdMaps spec.linux.gidMappings cfg.user.gid g
                | none => spec.linux.gidMappings } }

/-- The overlay together with the `_ensure_mounts` checks gating the final
write (both must succeed for `config.json` to be rewritten). -/
def overlayResult (cfg : ConfigData) (rundir : Option RundirData)
    (ouid ogid : Option Int) (allowTty forceTty : Option Bool) (ensure : Bool)
    (pathExists : String → Bool) (hostEnv : String → Option String)
    (pristine : OCISpec) : Except String OCISpec :=
  match overlaySpec cfg rundir ouid ogid allowTty forceTty hostEnv pristine with
  | .error e => .error e
  | .ok s' =>
    if ensure then
      match ensureMountsCheck cfg.volumes rundir pathExists cfg.volumes.mounts with
      | .error e => .error e
      | .ok _ => .ok s'
    else .ok s'

/-- The bundle directory's spec files: `config.json` and
`config.orig.json`, each possibly absent. -/
structure SpecFiles where
  spec : Option OCISpec
  orig : Option OCISpec
  deriving DecidableEq

/-- `update_spec_file` as a transformer of the bundle's spec files: read
`config.orig.json` if present, else read `config.json` and back it up to
`config.orig.json`; overlay the pristine spec; on success write the result
to `config.json`.  Returns the final file state and the written spec (or
the raised error; on error the files written so far remain). -/
def updateSpecFile (cfg : ConfigData) (rundir : Option RundirData)
    (ouid ogid : Option Int) (allowTty forceTty : Option Bool) (ensure : Bool)
    (pathExists : String → Bool) (hostEnv : String → Option String)
    (st : SpecFiles) : SpecFiles × Except String OCISpec :=
  if allowTty.isSome && forceTty.isSome then
    (st, .error "assert: allow_tty and force_tty are mutually exclusive")
  else
    match st.orig, st.spec with
    | some pristine, _ =>
      (match overlayResult cfg rundir ouid ogid allowTty forceTty ensure
          pathExists hostEnv pristine with
       | .error e => (st, .error e)
       | .ok s' => ({ st with spec := some s' }, .ok s'))
    | none, some fresh =>
      (match overlayResult cfg rundir ouid ogid allowTty forceTty ensure
          pathExists hostEnv fresh with
       | .error e => ({ st with orig := some fresh }, .error e)
       | .ok s' => ({ spec := some s', orig := some fresh }, .ok s'))
    | none, none => (st, .error "FileNotFoundError: config.json")

/-- C1: starting from a fresh `config.json` and no `config.orig.json`, a
successful `update_spec_file` call copies the fresh spec to
`config.orig.json` and writes the overlay result to `config.json`; a second
call with the same config, runtime dir, owner ids, TTY flags and host
environment leaves both files unchanged and writes a byte-identical
`config.json`; and every call that finds `config.orig.json` present uses it
(not the current `config.json`) as its pristine overlay input. -/
theorem C1_spec_overlay_idempotent (cfg : ConfigData) (rundir : Option RundirData)
    (ouid ogid : Option Int) (allowTty forceTty : Option Bool) (ensure : Bool)
    (pathExists : String → Bool) (hostEnv : String → Option String)
    (s₀ : OCISpec) (st₁ : SpecFiles) (s₁ : OCISpec)
    (h : updateSpecFile cfg rundir ouid ogid allowTty forceTty ensure
        pathExists hostEnv ⟨some s₀, none⟩ = (st₁, .ok s₁)) :
    st₁ = ⟨some s₁, some s₀⟩
    ∧ updateSpecFile cfg rundir ouid ogid allowTty forceTty ensure
        pathExists hostEnv st₁ = (st₁, .ok s₁)
    ∧ ∀ st : SpecFiles, ∀ o : OCISpec, st.orig = some o →
        (updateSpecFile cfg rundir ouid ogid allowTty forceTty ensure
            pathExists hostEnv st).2
          = overlayResult cfg rundir ouid ogid allowTty forceTty ensure
              pathExists hostEnv o := by
  rw [updateSpecFile] at h
  by_cases hg : (allowTty.isSome && forceTty.isSome) = true
  · rw [if_pos hg] at h
    exact absurd (congrArg Prod.snd h) (by simp)
  · rw [if_neg hg] at h
    simp only [] at h
    cases hov : overlayResult cfg rundir ouid ogid allowTty forceTty ensure
        pathExists hostEnv s₀ with
    | error e =>
      rw [hov] at h
      exact absurd (congrArg Prod.snd h) (by simp)
    | ok s' =>
      rw [hov] at h
      simp only [Prod.mk.injEq, Except.ok.injEq] at h
      obtain ⟨hst, hs⟩ := h
      subst hs
      refine ⟨hst.symm, ?_, ?_⟩
      · rw [← hst, updateSpecFile, if_neg hg]
        simp only [hov]
      · intro st o ho
        rw [updateSpecFile, if_neg hg]
        cases st with
        | mk sp og =>
          simp only at ho
          subst ho
          cases hov2 : overlayResult cfg rundir ouid ogid allowTty forceTty ensure
              pathExists hostEnv o <;> simp [hov2]

/-- C1 witness: a concrete fresh bundle on which the first call succeeds
and the second call reproduces the same `config.json`. -/
theorem C1_spec_overlay_idempotent_witness :
    updateSpecFile
        ⟨⟨"ctr"⟩, ⟨0, 0⟩, ⟨"", "", [], false⟩, ⟨[], []⟩, ⟨[], []⟩, ⟨"/vs", "/vp", []⟩⟩
        none none none none none true (fun _ => false) (fun _ => none)
        ⟨some ⟨"h0", ⟨⟨1, 1⟩, true, "/", ["sh"], [], []⟩, [], ⟨[], []⟩⟩, none⟩
      = (⟨some ⟨"ctr", ⟨⟨0, 0⟩, false, "/", ["sh"], [], []⟩, [], ⟨[], []⟩⟩,
          some ⟨"h0", ⟨⟨1, 1⟩, true, "/", ["sh"], [], []⟩, [], ⟨[], []⟩⟩⟩,
         .ok ⟨"ctr", ⟨⟨0, 0⟩, false, "/", ["sh"], [], []⟩, [], ⟨[], []⟩⟩)
    ∧ updateSpecFile
        ⟨⟨"ctr"⟩, ⟨0, 0⟩, ⟨"", "", [], false⟩, ⟨[], []⟩, ⟨[], []⟩, ⟨"/vs", "/vp", []⟩⟩
        none none none none none true (fun _ => false) (fun _ => none)
        ⟨some ⟨"ctr", ⟨⟨0, 0⟩, false, "/", ["sh"], [], []⟩, [], ⟨[], []⟩⟩,
         some ⟨"h0", ⟨⟨1, 1⟩, true, "/", ["sh"], [], []⟩, [], ⟨[], []⟩⟩⟩
      = (⟨some ⟨"ctr", ⟨⟨0, 0⟩, false, "/", ["sh"], [], []⟩, [], ⟨[], []⟩⟩,
          some ⟨"h0", ⟨⟨1, 1⟩, true, "/", ["sh"], [], []⟩, [], ⟨[], []⟩⟩⟩,
         .ok ⟨"ctr", ⟨⟨0, 0⟩, false, "/", ["sh"], [], []⟩, [], ⟨[], []⟩⟩) := by
  have h : updateSpecFile
      ⟨⟨"ctr"⟩, ⟨0, 0⟩, ⟨"", "", [], false⟩, ⟨[], []⟩, ⟨[], []⟩, ⟨"/vs", "/vp", []⟩⟩
      none none none none none true (fun _ => false) (fun _ => none)
      ⟨some ⟨"h0", ⟨⟨1, 1⟩, true, "/", ["sh"], [], []⟩, [], ⟨[], []⟩⟩, none⟩
      = (⟨some ⟨"ctr", ⟨⟨0, 0⟩, false, "/", ["sh"], [], []⟩, [], ⟨[], []⟩⟩,
          some ⟨"h0", ⟨⟨1, 1⟩, true, "/", ["sh"], [], []⟩, [], ⟨[], []⟩⟩⟩,
         .ok ⟨"ctr", ⟨⟨0, 0⟩, false, "/", ["sh"], [], []⟩, [], ⟨[], []⟩⟩) := by
    decide
  refine ⟨h, ?_⟩
  have h2 := C1_spec_overlay_idempotent _ _ _ _ _ _ _ _ _ _ _ _ h
  exact h2.1 ▸ h2.2.1

/-! ## Wait-status decoding (`compute_returncode`, utils/process.py lines
21-29) and returncode assignment (`RuncExecutor._reap`, runc.py lines
439-471; `Container._wait`, config/container.py lines 150-166).

Status words are the raw 16-bit `waitpid` values; `os.WIFSIGNALED` etc.
are the glibc macros.  `WIFSIGNALED` is true exactly when the termination
signal field lies in 1..126 (the glibc signed-char formula). -/

def wtermsig (status : Nat) : Nat := status % 128

def wexitstatus (status : Nat) : Nat := (status / 256) % 256

def wstopsig (status : Nat) : Nat := wexitstatus status

def wifexited (status : Nat) : Bool := wtermsig status == 0

def wifstopped (status : Nat) : Bool := status % 256 == 127

def wifsignaled (status : Nat) : Bool :=
  decide (0 < wtermsig status ∧ wtermsig status < 127)

/-- `compute_returncode`: the local `returncode` variable is assigned only
in the three `WIF*` branches; any other status word leaves it unbound and
the `return` raises `UnboundLocalError`, modelled by `none`. -/
def computeReturncode (status : Nat) : Option Int :=
  if wifsignaled status then some (-(wtermsig status : Int))
  else if wifexited status then some ((wexitstatus status : Int))
  else if wifstopped status then some ((wstopsig status : Int))
  else none

/-- The returncode-relevant state of one container handle. -/
structure ContainerRC where
  pid : Option Nat
  returncode : Option Int
  deriving DecidableEq

/-- One registry hit inside `_reap`'s waitpid loop: assign
`compute_returncode(sts)` only when the container's returncode is still
`None`.  `none` models the `UnboundLocalError` escape when the status word
matches no `WIF*` case. -/
def reapStep (c : ContainerRC) (status : Nat) : Option ContainerRC :=
  if c.returncode = none then
    match computeReturncode status with
    | some rc => some { c with returncode := some rc }
    | none => none
  else some c

/-- Outcome of the `os.waitpid(self.pid, ...)` call inside
`Container._wait`. -/
inductive WaitOutcome
  | childErr
  | stillAlive
  | exitedWith (status : Nat)
  deriving DecidableEq

/-- What one `Container._wait` call did: the new handle state, the value
returned, and whether `waitpid` was invoked at all. -/
structure WaitResult where
  state : ContainerRC
  ret : Option Int
  calledWaitpid : Bool
  deriving DecidableEq

/-- `Container._wait`: return the stored returncode immediately (without
`waitpid`) when it is already set or there is no pid; otherwise `waitpid`
and either map `ChildProcessError` to the sentinel 255, observe the child
still alive, or decode the status word. -/
def waitStep (c : ContainerRC) (outcome : WaitOutcome) : Option WaitResult :=
  if c.returncode ≠ none ∨ c.pid = none then
    some ⟨c, c.returncode, false⟩
  else
    match outcome with
    | .childErr => some ⟨{ c with returncode := some 255 }, some 255, true⟩
    | .stillAlive => some ⟨c, none, true⟩
    | .exitedWith status =>
      match computeReturncode status with
      | some rc => some ⟨{ c with returncode := some rc }, some rc, true⟩
      | none => none

/-- An interleaving of reaper hits and `wait()` calls on one container. -/
inductive RCEvent
  | reap (status : Nat)
  | wait (outcome : WaitOutcome)
  deriving DecidableEq

/-- Run a sequence of reap/wait events on a container handle,
propagating the `UnboundLocalError` escape. -/
def runEvents : List RCEvent → ContainerRC → Option ContainerRC
  | [], c => some c
  | .reap status :: t, c =>
    match reapStep c status with
    | some c' => runEvents t c'
    | none => none
  | .wait outcome :: t, c =>
    match waitStep c outcome with
    | some r => runEvents t r.state
    | none => none

/-- C6: a container's returncode is written at most once.  The reaper
assigns `compute_returncode(status)` only when the returncode is still
`None` and never overwrites a set value; `wait()` returns an already-set
returncode unchanged without calling `waitpid`; `ChildProcessError` maps to
the sentinel 255 only from the unset state; and across any interleaving of
reap and wait events a set returncode never changes. -/
theorem C6_returncode_set_once :
    (∀ (c : ContainerRC) (status : Nat) (c' : ContainerRC),
        reapStep c status = some c' →
        ∀ v, c.returncode = some v → c'.returncode = some v)
    ∧ (∀ (c : ContainerRC) (status : Nat) (c' : ContainerRC),
        c.returncode = none → reapStep c status = some c' →
        c'.returncode = computeReturncode status)
    ∧ (∀ (c : ContainerRC) (outcome : WaitOutcome) (r : WaitResult),
        waitStep c outcome = some r →
        ∀ v, c.returncode = some v →
          r.state = c ∧ r.ret = some v ∧ r.calledWaitpid = false)
    ∧ (∀ (c : ContainerRC) (r : WaitResult),
        waitStep c .childErr = some r → r.state.returncode = some 255 →
        c.returncode = none ∨ c.returncode = some 255)
    ∧ (∀ (events : List RCEvent) (c c' : ContainerRC) (v : Int),
        runEvents events c = some c' → c.returncode = some v →
        c'.returncode = some v) := by
  have hreap : ∀ (c : ContainerRC) (status : Nat) (c' : ContainerRC),
      reapStep c status = some c' →
      ∀ v, c.returncode = some v → c'.returncode = some v := by
    intro c status c' h v hv
    rw [reapStep] at h
    rw [if_neg (by simp [hv])] at h
    cases h
    exact hv
  have hwait : ∀ (c : ContainerRC) (outcome : WaitOutcome) (r : WaitResult),
      waitStep c outcome = some r →
      ∀ v, c.returncode = some v →
        r.state = c ∧ r.ret = some v ∧ r.calledWaitpid = false := by
    intro c outcome r h v hv
    rw [waitStep.eq_def] at h
    rw [if_pos (Or.inl (by simp [hv]))] at h
    cases h
    exact ⟨rfl, hv, rfl⟩
  refine ⟨hreap, ?_, hwait, ?_, ?_⟩
  · intro c status c' hnone h
    rw [reapStep, if_pos hnone] at h
    cases hcr : computeReturncode status with
    | some rc => rw [hcr] at h; cases h; simp
    | none => rw [hcr] at h; exact absurd h (by simp)
  · intro c r h hret
    by_cases hnone : c.returncode = none
    · exact Or.inl hnone
    · rw [waitStep.eq_def, if_pos (Or.inl hnone)] at h
      cases h
      exact Or.inr hret
  · intro events
    induction events with
    | nil =>
      intro c c' v h hv
      rw [runEvents] at h
      cases h
      exact hv
    | cons e t ih =>
      intro c c' v h hv
      cases e with
      | reap status =>
        rw [runEvents] at h
        cases hs : reapStep c status with
        | some c₁ =>
          rw [hs] at h
          exact ih c₁ c' v h (hreap c status c₁ hs v hv)
        | none => rw [hs] at h; exact absurd h (by simp)
      | wait outcome =>
        rw [runEvents] at h
        cases hs : waitStep c outcome with
        | some r =>
          rw [hs] at h
          have hr := hwait c outcome r hs v hv
          exact ih r.state c' v h (hr.1.symm ▸ hv)
        | none => rw [hs] at h; exact absurd h (by simp)

/-- C6 witness: on a container whose returncode is already 7, a reap of a
clean exit status followed by a `ChildProcessError` wait leaves the
returncode at 7. -/
theorem C6_returncode_set_once_witness :
    (⟨some 4, some 7⟩ : ContainerRC).returncode = some 7 := by
  have h : runEvents [RCEvent.reap 0, RCEvent.wait .childErr] ⟨some 4, some 7⟩
      = some ⟨some 4, some 7⟩ := by decide
  exact C6_returncode_set_once.2.2.2.2
    [RCEvent.reap 0, RCEvent.wait .childErr] ⟨some 4, some 7⟩ ⟨some 4, some 7⟩ 7 h rfl

/-- C10: `compute_returncode` produces a value exactly when the status word
satisfies `WIFSIGNALED`, `WIFEXITED` or `WIFSTOPPED` (mapping them to
`-signo`, the exit code and the stop signal respectively); on any other
status word it fails instead of returning, and both callers — the
executor's `_reap` and the handle's `_wait` — propagate that failure from
the state where they would assign a returncode. -/
theorem C10_compute_returncode_defined_cases (status : Nat) :
    ((computeReturncode status).isSome
        ↔ (wifsignaled status = true ∨ wifexited status = true
            ∨ wifstopped status = true))
    ∧ (wifsignaled status = true →
        computeReturncode status = some (-(wtermsig status : Int)))
    ∧ (wifsignaled status = false → wifexited status = true →
        computeReturncode status = some ((wexitstatus status : Int)))
    ∧ (wifsignaled status = false → wifexited status = false →
        wifstopped status = true →
        computeReturncode status = some ((wstopsig status : Int)))
    ∧ (∀ c : ContainerRC, c.returncode = none →
        (reapStep c status = none ↔ computeReturncode status = none))
    ∧ (∀ c : ContainerRC, c.returncode = none → c.pid ≠ none →
        (waitStep c (.exitedWith status) = none
          ↔ computeReturncode status = none)) := by
  refine ⟨?_, ?_, ?_, ?_, ?_, ?_⟩
  · rw [computeReturncode]
    by_cases h1 : wifsignaled status <;>
      by_cases h2 : wifexited status <;>
        by_cases h3 : wifstopped status <;> simp [h1, h2, h3]
  · intro h1
    rw [computeReturncode, if_pos h1]
  · intro h1 h2
    rw [computeReturncode, if_neg (by simp [h1]), if_pos h2]
  · intro h1 h2 h3
    rw [computeReturncode, if_neg (by simp [h1]), if_neg (by simp [h2]), if_pos h3]
  · intro c hnone
    rw [reapStep, if_pos hnone]
    cases h : computeReturncode status <;> simp [h]
  · intro c hnone hpid
    rw [waitStep.eq_def, if_neg (by simp [hnone, hpid])]
    cases h : computeReturncode status <;> simp [h]

/-- C10 witness: status word 9 is a `SIGKILL` termination and decodes to
-9; status word 255 (`0x7f` low bits with the core-dump bit set) satisfies
none of the three predicates and `compute_returncode` fails on it. -/
theorem C10_compute_returncode_defined_cases_witness :
    computeReturncode 9 = some (-9)
    ∧ computeReturncode 255 = none
    ∧ reapStep ⟨some 4, none⟩ 255 = none := by
  refine ⟨(C10_compute_returncode_defined_cases 9).2.1 (by decide), by decide, ?_⟩
  exact ((C10_compute_returncode_defined_cases 255).2.2.2.2.1 ⟨some 4, none⟩ rfl).mpr (by decide)

/-! ## Lockfile / pidfile checks and `create_container`
(`RuncExecutor._check_container_pidfile` runc.py lines 784-805,
`_check_container_lockfile` lines 807-828, `_write_container_lockfile`
lines 830-832, `create_container` lines 856-895).

The world records the per-container files and whether a runtime child was
spawned; `create_container` is modelled up to and including the
`subprocess.Popen` of `runc create` (`spawned := true`), the later
tty/state/registry steps cannot un-spawn the child or touch the spec
files checked by the claim.  File contents are the parsed decimal pid
(`some 0` stands for falsy content).  `alive pid` is the
`os.kill(pid, 0)` probe. -/

/-- `RuncError(name, message, code=1)`. -/
structure RuncError where
  name : String
  message : String
  code : Int
  deriving DecidableEq

/-- The exceptions `create_container` can raise. -/
inductive PyError
  | runc (e : RuncError)
  | runtimeError (msg : String)
  | cfgError (msg : String)
  deriving DecidableEq

/-- Per-container files plus the spawn flag. -/
structure CreateWorld where
  pidfile : Option Nat
  lockfile : Option Nat
  specFiles : SpecFiles
  spawned : Bool
  deriving DecidableEq

/-- `_check_container_pidfile`: a live pid different from the container's
own means "Container already exists"; a dead pid removes the stale
pidfile; absent or falsy content passes. -/
def checkContainerPidfile (containerPid : Option Nat) (name : String)
    (alive : Nat → Bool) (pidfile : Option Nat) : Except RuncError (Option Nat) :=
  match pidfile with
  | none => .ok none
  | some pid =>
    if pid ≠ 0 ∧ containerPid ≠ some pid then
      if alive pid then .error ⟨name, "Container already exists", 1⟩
      else .ok none
    else .ok (some pid)

/-- `_check_container_lockfile`: a live pid different from the supervisor's
own means "Container already in use"; a dead pid removes the stale
lockfile; absent or falsy content passes. -/
def checkContainerLockfile (selfPid : Nat) (name : String)
    (alive : Nat → Bool) (lockfile : Option Nat) : Except RuncError (Option Nat) :=
  match lockfile with
  | none => .ok none
  | some pid =>
    if pid ≠ 0 ∧ pid ≠ selfPid then
      if alive pid then .error ⟨name, "Container already in use", 1⟩
      else .ok none
    else .ok (some pid)

/-- `create_container` up to the runtime spawn: closing/pid guards, pidfile
check, lockfile check, lockfile write, spec-file update, then the `runc
create` child.  Errors leave the world as accumulated so far. -/
def createContainer (selfPid : Nat) (closing : Bool) (alive : Nat → Bool)
    (name : String) (containerPid : Option Nat) (useTty : Bool)
    (cfg : ConfigData) (rundir : Option RundirData)
    (pathExists : String → Bool) (hostEnv : String → Option String)
    (w : CreateWorld) : CreateWorld × Except PyError Unit :=
  if closing then (w, .error (.runtimeError "Cannot create container when closing"))
  else if containerPid.isSome then
    (w, .error (.runtimeError "Container already created"))
  else
    match checkContainerPidfile containerPid name alive w.pidfile with
    | .error e => (w, .error (.runc e))
    | .ok pidfile' =>
      match checkContainerLockfile selfPid name alive w.lockfile with
      | .error e => ({ w with pidfile := pidfile' }, .error (.runc e))
      | .ok _ =>
        match updateSpecFile cfg rundir none none (some useTty) none true
            pathExists hostEnv w.specFiles with
        | (sf, .error e) =>
          ({ w with pidfile := pidfile', lockfile := some selfPid, specFiles := sf },
           .error (.cfgError e))
        | (sf, .ok _) =>
          (⟨pidfile', some selfPid, sf, true⟩, .ok ())

/-- `needle` occurs at the start of `hay`. -/
def startsWithList : List Char → List Char → Bool
  | _, [] => true
  | [], _ :: _ => false
  | h :: t, n :: ns => h == n && startsWithList t ns

/-- `needle` occurs somewhere inside `hay` (Python `needle in hay`). -/
def strHasSub : List Char → List Char → Bool
  | [], needle => needle.isEmpty
  | h :: t, needle => startsWithList (h :: t) needle || strHasSub t needle

/-- C4: when the lockfile holds a pid that is alive and differs from the
supervisor's own pid (and the earlier pidfile check passes),
`create_container` raises a `RuncError` whose message contains "already in
use", and on that path the spec files, the lockfile and the spawn flag are
untouched; when the lockfile's pid is dead, the lockfile check removes the
stale file and creation proceeds: the lockfile is rewritten with the
supervisor pid, the spec files are updated and the runtime child is
spawned. -/
theorem C4_lockfile_blocks_creation (selfPid : Nat) (alive : Nat → Bool)
    (name : String) (useTty : Bool) (cfg : ConfigData) (rundir : Option RundirData)
    (pathExists : String → Bool) (hostEnv : String → Option String)
    (w : CreateWorld) (pf : Option Nat) (lockPid : Nat)
    (hpf : checkContainerPidfile none name alive w.pidfile = .ok pf)
    (hlock : w.lockfile = some lockPid)
    (hp0 : lockPid ≠ 0) (hps : lockPid ≠ selfPid) :
    (alive lockPid = true →
      createContainer selfPid false alive name none useTty cfg rundir
          pathExists hostEnv w
        = ({ w with pidfile := pf },
           .error (.runc ⟨name, "Container already in use", 1⟩))
      ∧ ({ w with pidfile := pf } : CreateWorld).specFiles = w.specFiles
      ∧ ({ w with pidfile := pf } : CreateWorld).lockfile = w.lockfile
      ∧ ({ w with pidfile := pf } : CreateWorld).spawned = w.spawned
      ∧ strHasSub ("Container already in use").data ("already in use").data = true)
    ∧ (alive lockPid = false →
      checkContainerLockfile selfPid name alive w.lockfile = .ok none
      ∧ ∀ (sf : SpecFiles) (s' : OCISpec),
          updateSpecFile cfg rundir none none (some useTty) none true
              pathExists hostEnv w.specFiles = (sf, .ok s') →
          createContainer selfPid false alive name none useTty cfg rundir
              pathExists hostEnv w
            = (⟨pf, some selfPid, sf, true⟩, .ok ())) := by
  constructor
  · intro halive
    have hchk : checkContainerLockfile selfPid name alive w.lockfile
        = .error ⟨name, "Container already in use", 1⟩ := by
      rw [hlock, checkContainerLockfile, if_pos ⟨hp0, hps⟩, if_pos halive]
    refine ⟨?_, rfl, rfl, rfl, by decide⟩
    rw [createContainer, if_neg (by simp), if_neg (by simp), hpf]
    simp only [hchk]
  · intro hdead
    have hchk : checkContainerLockfile selfPid name alive w.lockfile = .ok none := by
      rw [hlock, checkContainerLockfile, if_pos ⟨hp0, hps⟩, if_neg (by simp [hdead])]
    refine ⟨hchk, ?_⟩
    intro sf s' hupd
    rw [createContainer, if_neg (by simp), if_neg (by simp), hpf]
    simp only [hchk, hupd]

/-- C4 witness: supervisor pid 100; a lockfile held by pid 200.  When 200
is alive, creation is blocked with "already in use" and nothing is
written; when 200 is dead, the stale lockfile is removed, rewritten with
pid 100, the spec files are updated and the child is spawned. -/
theorem C4_lockfile_blocks_creation_witness :
    createContainer 100 false (fun p => p == 200) "c" none false
        ⟨⟨"ctr"⟩, ⟨0, 0⟩, ⟨"", "", [], false⟩, ⟨[], []⟩, ⟨[], []⟩, ⟨"/vs", "/vp", []⟩⟩
        none (fun _ => false) (fun _ => none)
        ⟨none, some 200, ⟨some ⟨"h0", ⟨⟨1, 1⟩, true, "/", ["sh"], [], []⟩, [], ⟨[], []⟩⟩,
          none⟩, false⟩
      = (⟨none, some 200, ⟨some ⟨"h0", ⟨⟨1, 1⟩, true, "/", ["sh"], [], []⟩, [], ⟨[], []⟩⟩,
          none⟩, false⟩,
         .error (.runc ⟨"c", "Container already in use", 1⟩))
    ∧ createContainer 100 false (fun _ => false) "c" none false
        ⟨⟨"ctr"⟩, ⟨0, 0⟩, ⟨"", "", [], false⟩, ⟨[], []⟩, ⟨[], []⟩, ⟨"/vs", "/vp", []⟩⟩
        none (fun _ => false) (fun _ => none)
        ⟨none, some 200, ⟨some ⟨"h0", ⟨⟨1, 1⟩, true, "/", ["sh"], [], []⟩, [], ⟨[], []⟩⟩,
          none⟩, false⟩
      = (⟨none, some 100,
          ⟨some ⟨"ctr", ⟨⟨0, 0⟩, false, "/", ["sh"], [], []⟩, [], ⟨[], []⟩⟩,
           some ⟨"h0", ⟨⟨1, 1⟩, true, "/", ["sh"], [], []⟩, [], ⟨[], []⟩⟩⟩,
          true⟩, .ok ()) := by
  constructor
  · exact ((C4_lockfile_blocks_creation 100 (fun p => p == 200) "c" false
      ⟨⟨"ctr"⟩, ⟨0, 0⟩, ⟨"", "", [], false⟩, ⟨[], []⟩, ⟨[], []⟩, ⟨"/vs", "/vp", []⟩⟩
      none (fun _ => false) (fun _ => none)
      ⟨none, some 200, ⟨some ⟨"h0", ⟨⟨1, 1⟩, true, "/", ["sh"], [], []⟩, [], ⟨[], []⟩⟩,
        none⟩, false⟩
      none 200 rfl rfl (by decide) (by decide)).1 (by decide)).1
  · exact ((C4_lockfile_blocks_creation 100 (fun _ => false) "c" false
      ⟨⟨"ctr"⟩, ⟨0, 0⟩, ⟨"", "", [], false⟩, ⟨[], []⟩, ⟨[], []⟩, ⟨"/vs", "/vp", []⟩⟩
      none (fun _ => false) (fun _ => none)
      ⟨none, some 200, ⟨some ⟨"h0", ⟨⟨1, 1⟩, true, "/", ["sh"], [], []⟩, [], ⟨[], []⟩⟩,
        none⟩, false⟩
      none 200 rfl rfl (by decide) (by decide)).2 rfl).2
      ⟨some ⟨"ctr", ⟨⟨0, 0⟩, false, "/", ["sh"], [], []⟩, [], ⟨[], []⟩⟩,
       some ⟨"h0", ⟨⟨1, 1⟩, true, "/", ["sh"], [], []⟩, [], ⟨[], []⟩⟩⟩
      ⟨"ctr", ⟨⟨0, 0⟩, false, "/", ["sh"], [], []⟩, [], ⟨[], []⟩⟩ (by decide)

/-! ## `run_until_complete` (runc.py lines 560-624)

The try-block lifecycle (stdio/tty/signal setup, create, start, signal
loop, `_get_returncode`, remove) is abstracted as its outcome: either the
container registry at completion or the exception it raised.  The finally
block's teardown steps are recorded in order. -/

/-- An exception escaping the lifecycle try-block: a `RuncError` carrying
its `code`, or anything else. -/
inductive LifecycleExc
  | runcExc (code : Int)
  | otherExc
  deriving DecidableEq

/-- The teardown actions of the finally block, in source order. -/
inductive TeardownStep
  | closeContainers
  | unsetSubreaper
  | restoreSignals
  | resetTty
  | closeStdio
  deriving DecidableEq

def teardownSequence : List TeardownStep :=
  [.closeContainers, .unsetSubreaper, .restoreSignals, .resetTty, .closeStdio]

/-- `_get_returncode`'s scan: first truthy (non-None, non-zero) container
returncode. -/
def getReturncodeLoop : List ContainerRC → Option Int
  | [] => none
  | c :: t =>
    match c.returncode with
    | some rc => if rc ≠ 0 then some rc else getReturncodeLoop t
    | none => getReturncodeLoop t

/-- `_get_returncode`: first non-zero container returncode, else 0 when any
containers exist, else `None`. -/
def getReturncode (containers : List ContainerRC) : Option Int :=
  match getReturncodeLoop containers with
  | some rc => some rc
  | none => if containers.isEmpty then none else some 0

/-- `run_until_complete`: guard against a closing executor (raised before
the try-block, so without teardown), then run the lifecycle; an escaping
`RuncError` sets the returncode to its `code`, any other exception sets 1;
the finally block always runs the full teardown sequence. -/
def runUntilComplete (closing : Bool)
    (lifecycle : Except LifecycleExc (List ContainerRC)) :
    Except String (Option Int × List TeardownStep) :=
  if closing then .error "RuntimeError: Cannot run when closing"
  else
    match lifecycle with
    | .ok containers => .ok (getReturncode containers, teardownSequence)
    | .error (.runcExc code) => .ok (some code, teardownSequence)
    | .error .otherExc => .ok (some 1, teardownSequence)

/-- C5: every exception raised by the lifecycle inside
`run_until_complete` is caught and mapped to the executor's return value —
a `RuncError` yields its `code`, any other exception yields 1 — and the
teardown sequence (close containers, unset subreaper, restore signals,
reset TTY, close stdio) runs both on success and on every exception. -/
theorem C5_lifecycle_exception_mapping
    (lifecycle : Except LifecycleExc (List ContainerRC)) :
    runUntilComplete false lifecycle
      = .ok ((match lifecycle with
              | .ok containers => getReturncode containers
              | .error (.runcExc code) => some code
              | .error .otherExc => some 1),
             teardownSequence)
    ∧ (∀ e, lifecycle = .error e →
        runUntilComplete false lifecycle
          = .ok ((match e with
                  | .runcExc code => some code
                  | .otherExc => some 1),
                 teardownSequence)) := by
  constructor
  · cases lifecycle with
    | ok containers => rfl
    | error e => cases e <;> rfl
  · intro e he
    subst he
    cases e <;> rfl

/-- C5 witness: a lifecycle failing with `RuncError(code=3)` yields
returncode 3 and the full teardown. -/
theorem C5_lifecycle_exception_mapping_witness :
    runUntilComplete false (.error (.runcExc 3))
      = .ok (some 3, teardownSequence) := by
  exact (C5_lifecycle_exception_mapping (.error (.runcExc 3))).2 (.runcExc 3) rfl

/-! ## `iopump` cleanup (runc.py lines 32-197)

The body of the pump exits normally (source exhausted and buffer drained,
or the stop flag observed), via the early return when the future was
already cancelled, or with an exception (`BrokenPipeError` included).  The
finally block's actions are recorded in order.  The close calls swallow
`OSError`, so the `closeReadRaises` / `closeWriteRaises` oracles cannot
influence the emitted actions; `writeIsTty` records whether the write
endpoint is a terminal — the finally block never consults it and `iopump`
has no `tty_eof` parameter. -/

/-- How the pump's try-block ended. -/
inductive PumpExit
  | normal
  | earlyCancelled
  | excRaised (msg : String)
  deriving DecidableEq

/-- The cleanup actions of `iopump`'s finally block. -/
inductive CleanupAction
  | clearBuffer
  | closeRead
  | closeWrite
  | writeVEOF
  | setException (msg : String)
  | setResult
  deriving DecidableEq

/-- Is this action a completion of the future? -/
def isCompletion : CleanupAction → Bool
  | .setException _ => true
  | .setResult => true
  | _ => false

/-- `iopump`'s finally block: clear the buffer, close the read end when
still open (swallowing `OSError`), close the write end (swallowing
`OSError`), then complete a supplied non-cancelled future with the
exception or a result.  `future` is `some cancelled?` when a future was
supplied. -/
def iopumpCleanup (readOpen writeIsTty closeReadRaises closeWriteRaises : Bool)
    (future : Option Bool) (exc : Option String) : List CleanupAction :=
  [.clearBuffer]
    ++ (if readOpen then [.closeRead] else [])
    ++ [.closeWrite]
    ++ (match future with
        | some cancelled =>
          if cancelled then []
          else
            match exc with
            | some msg => [.setException msg]
            | none => [.setResult]
        | none => [])

/-- The cleanup run for a given body exit. -/
def iopumpFinish (exit' : PumpExit)
    (readOpen writeIsTty closeReadRaises closeWriteRaises : Bool)
    (future : Option Bool) : List CleanupAction :=
  iopumpCleanup readOpen writeIsTty closeReadRaises closeWriteRaises future
    (match exit' with
     | .excRaised msg => some msg
     | _ => none)

/-- C8 counterexample: on a normal exit with the read end open, the write
side a TTY and a live future, the cleanup is exactly clear-buffer,
close-read, close-write, set-result — no VEOF byte is ever written
(`iopump` has no `tty_eof` input), refuting the claim's VEOF clause. -/
theorem C8_iopump_cleanup_counterexample :
    CleanupAction.writeVEOF ∉ iopumpFinish .normal true true false false (some false)
    ∧ iopumpFinish .normal true true false false (some false)
      = [.clearBuffer, .closeRead, .closeWrite, .setResult] := by
  exact ⟨by decide, by decide⟩

/-- C8 (amended): on every exit of the pump — normal end-of-stream or
stop-flag exit, the early cancelled-future return, broken pipe or any
other exception — the cleanup clears the buffer first, closes the read
endpoint exactly when it is still open, closes the write endpoint, never
writes a VEOF byte, is unaffected by `OSError` from either close, and
completes a supplied non-cancelled future exactly once — with the raised
exception when one occurred and with a result otherwise. -/
theorem C8_iopump_cleanup (exit' : PumpExit)
    (readOpen writeIsTty closeReadRaises closeWriteRaises : Bool)
    (future : Option Bool) :
    (iopumpFinish exit' readOpen writeIsTty closeReadRaises closeWriteRaises
        future).head? = some .clearBuffer
    ∧ (CleanupAction.closeRead
        ∈ iopumpFinish exit' readOpen writeIsTty closeReadRaises closeWriteRaises future
        ↔ readOpen = true)
    ∧ CleanupAction.closeWrite
        ∈ iopumpFinish exit' readOpen writeIsTty closeReadRaises closeWriteRaises future
    ∧ CleanupAction.writeVEOF
        ∉ iopumpFinish exit' readOpen writeIsTty closeReadRaises closeWriteRaises future
    ∧ (∀ r w : Bool,
        iopumpFinish exit' readOpen writeIsTty r w future
          = iopumpFinish exit' readOpen writeIsTty closeReadRaises closeWriteRaises future)
    ∧ ((iopumpFinish exit' readOpen writeIsTty closeReadRaises closeWriteRaises
          future).filter isCompletion).length
        = (if future = some false then 1 else 0)
    ∧ (future = some false →
        (iopumpFinish exit' readOpen writeIsTty closeReadRaises closeWriteRaises
            future).filter isCompletion
          = (match exit' with
             | .excRaised msg => [.setException msg]
             | _ => [.setResult])) := by
  cases exit' <;> cases readOpen <;>
    rcases future with _ | _ | _ <;>
      simp [iopumpFinish, iopumpCleanup, isCompletion]

/-- C8 witness: an exception exit with a live future completes the future
with that exception after closing both endpoints. -/
theorem C8_iopump_cleanup_witness :
    (iopumpFinish (.excRaised "broken pipe") true false false false
        (some false)).filter isCompletion
      = [.setException "broken pipe"] := by
  exact (C8_iopump_cleanup (.excRaised "broken pipe") true false false false
    (some false)).2.2.2.2.2.2 rfl

/-! ## `Container.close` (config/container.py lines 173-213)

`close()` runs `_close()` only when `_closing is None`.  `_close` sets
`_closing = True`, waits on the child, and in its finally block sets the
stop flag, joins and drains every thread, closes and drains every fd
(swallowing `OSError`), and finally sets `_closing = False`.  The
`fdRaises` oracle says which fd closes raise `OSError`; they are swallowed
and cannot influence the result.  A `none` result models the
`compute_returncode` failure propagating out of `wait()`. -/

/-- The owned state `Container.close` operates on. -/
structure ContainerHandle where
  rc : ContainerRC
  closing : Option Bool
  closeFds : List Nat
  ioThreads : List Nat
  hasStopEvent : Bool
  stopEventSet : Bool
  deriving DecidableEq

/-- What one `close()` call did. -/
inductive CloseAction
  | waited
  | setStopFlag
  | joinedThread (t : Nat)
  | closedFd (fd : Nat)
  deriving DecidableEq

/-- `Container.close`: first call (with `_closing is None`) waits, sets the
stop flag, joins all threads, closes all fds and empties both lists,
leaving `_closing = False`; later calls do nothing and return the stored
returncode. -/
def containerClose (c : ContainerHandle) (outcome : WaitOutcome)
    (fdRaises : Nat → Bool) :
    Option (ContainerHandle × List CloseAction × Option Int) :=
  if c.closing = none then
    match waitStep c.rc outcome with
    | none => none
    | some r =>
      some ({ c with rc := r.state, closing := some false, closeFds := [], ioThreads := [], stopEventSet := c.stopEventSet || c.hasStopEvent },
        [.waited]
          ++ (if c.hasStopEvent then [.setStopFlag] else [])
          ++ c.ioThreads.map .joinedThread
          ++ c.closeFds.map .closedFd,
        r.state.returncode)
  else
    some (c, [], c.rc.returncode)

/-- C9: `close()` is idempotent and releases everything exactly once.  A
first call (when `_closing` is unset) waits on the child, sets the stop
flag, joins every owned thread and closes every owned fd while swallowing
`OSError`, leaving both ownership lists empty; every subsequent call
performs no action and returns the stored returncode. -/
theorem C9_container_close_idempotent (c : ContainerHandle)
    (outcome : WaitOutcome) (fdRaises : Nat → Bool) :
    (c.closing = none →
      ∀ c' acts ret, containerClose c outcome fdRaises = some (c', acts, ret) →
        c'.closeFds = []
        ∧ c'.ioThreads = []
        ∧ c'.closing = some false
        ∧ CloseAction.waited ∈ acts
        ∧ (c.hasStopEvent = true → CloseAction.setStopFlag ∈ acts)
        ∧ (∀ t ∈ c.ioThreads, CloseAction.joinedThread t ∈ acts)
        ∧ (∀ fd ∈ c.closeFds, CloseAction.closedFd fd ∈ acts)
        ∧ ret = c'.rc.returncode
        ∧ (∀ g : Nat → Bool, containerClose c outcome g
            = containerClose c outcome fdRaises)
        ∧ (∀ outcome2 g, containerClose c' outcome2 g
            = some (c', [], c'.rc.returncode)))
    ∧ (c.closing ≠ none →
        containerClose c outcome fdRaises = some (c, [], c.rc.returncode)) := by
  constructor
  · intro hnone c' acts ret h
    rw [containerClose, if_pos hnone] at h
    cases hw : waitStep c.rc outcome with
    | none => rw [hw] at h; exact absurd h (by simp)
    | some r =>
      rw [hw] at h
      simp only [Option.some.injEq, Prod.mk.injEq] at h
      obtain ⟨hc', hacts, hret⟩ := h
      subst hc'
      subst hacts
      subst hret
      refine ⟨rfl, rfl, rfl, by simp, ?_, ?_, ?_, rfl, ?_, ?_⟩
      · intro hs; simp [hs]
      · intro t ht; simp [ht]
      · intro fd hfd; simp [hfd]
      · intro g; rw [containerClose, if_pos hnone, hw, containerClose, if_pos hnone, hw]
      · intro outcome2 g
        rw [containerClose, if_neg (by simp)]
  · intro hsome
    rw [containerClose, if_neg hsome]

/-- C9 witness: a handle owning two fds and one thread is fully drained by
the first close and untouched by a second. -/
theorem C9_container_close_idempotent_witness :
    containerClose ⟨⟨some 4, some 0⟩, none, [7, 8], [1], true, false⟩ .childErr
        (fun _ => true)
      = some (⟨⟨some 4, some 0⟩, some false, [], [], true, true⟩,
          [.waited, .setStopFlag, .joinedThread 1, .closedFd 7, .closedFd 8],
          some 0)
    ∧ containerClose ⟨⟨some 4, some 0⟩, some false, [], [], true, true⟩ .childErr
        (fun _ => true)
      = some (⟨⟨some 4, some 0⟩, some false, [], [], true, true⟩, [], some 0) := by
  constructor
  · decide
  · exact ((C9_container_close_idempotent
      ⟨⟨some 4, some 0⟩, none, [7, 8], [1], true, false⟩ .childErr (fun _ => true)).1
      rfl ⟨⟨some 4, some 0⟩, some false, [], [], true, true⟩
      [.waited, .setStopFlag, .joinedThread 1, .closedFd 7, .closedFd 8] (some 0)
      (by decide)).2.2.2.2.2.2.2.2.2 .childErr (fun _ => true)

end Darkwing
